import Mathlib

/-!
Verification of the Block Zapper attribute-classification and tree-cleaning
engine.  The definitions below are a shallow embedding of the current
implementation of `getCategorizedAttributes`, `createCleanBlock` and
`zapBlocks` (the allow-list rewrite of the edit module, the latest of the
source revisions).  JavaScript objects of attribute key/value pairs are
modelled as association lists `List (String × String)` (keys unique per node
in practice, but no theorem below needs that); JavaScript `Set`s of string
keys are modelled as `List String` with membership.
-/

namespace BlockZapper

/-- The seven zap option flags, mirroring the `zapOptions` state object
(`blockSettings`, `blockStyles`, `customProperties`, `keepMedia`,
`customClasses`, `customAnchors`, `htmlElements`). -/
structure ZapOptions where
  blockSettings : Bool
  blockStyles : Bool
  customProperties : Bool
  keepMedia : Bool
  customClasses : Bool
  customAnchors : Bool
  htmlElements : Bool
deriving DecidableEq, Repr

/-- The `essentialContent` array of `getAllowList`: core content attribute
keys that are always added to the allow list. -/
def essentialContent : List String :=
  ["content", "href", "text", "level", "tagName", "value",
   "label", "placeholder", "title", "type", "checked", "selected", "disabled",
   "required", "multiple", "name", "headers", "scope"]

/-- The array returned by the `getMediaAttributes` helper of `getAllowList`
(shared between both modes), copied verbatim, duplicates included. -/
def getMediaAttributes : List String :=
  ["src", "srcset", "sizes", "alt", "caption", "id", "url", "linkDestination",
   "linkTarget", "rel",
   "poster", "preload", "autoplay", "controls", "loop", "muted", "playsInline",
   "crossOrigin", "sizeSlug", "blob", "mediaId", "mediaType", "mediaUrl",
   "aspectRatio", "width", "height", "scale",
   "linkClass", "linkText", "showDownloadButton", "downloadButtonText",
   "style",
   "mediaPosition", "mediaType", "mediaUrl", "mediaId", "mediaAlt",
   "mediaWidth", "mediaHeight", "mediaSize", "mediaSizes", "mediaSrcset",
   "videoId", "videoUrl", "videoAlt", "videoPoster", "videoAutoplay",
   "videoLoop", "videoMuted", "videoControls", "videoPreload",
   "imageId", "imageUrl", "imageAlt", "imageCaption", "imageWidth",
   "imageHeight",
   "imageSize", "imageSizes", "imageSrcset", "imageFocalPoint",
   "backgroundImage", "backgroundPosition", "backgroundSize",
   "backgroundRepeat",
   "backgroundAttachment", "backgroundClip", "backgroundOrigin",
   "focalPoint", "hasParallax", "isRepeated", "useFeaturedImage",
   "backgroundType",
   "overlayColor", "customOverlayColor", "dimRatio", "gradient",
   "customGradient",
   "metadata", "layout", "minHeight", "minHeightUnit",
   "icon", "iconName", "iconLibrary", "iconSet", "iconSize", "iconColor",
   "iconBackgroundColor",
   "iconBorderColor", "iconBorderRadius", "iconBorderWidth", "iconPadding",
   "iconMargin",
   "iconRotation", "iconFlip", "iconAlign", "iconLink", "iconLinkTarget",
   "iconLinkRel",
   "iconCustomSvg", "iconCustomPath", "iconCustomViewBox", "iconCustomWidth",
   "iconCustomHeight"]

/-- The inline array added to the allow list when `zapOptions.blockSettings`
is false. -/
def blockSettingsKeys : List String :=
  ["orientation", "verticalAlignment", "templateLock", "allowedBlocks",
   "layout", "templateInsertUpdatesSelection"]

/-- The inline array added to the allow list when `zapOptions.blockStyles`
is false. -/
def blockStylesKeys : List String :=
  ["backgroundColor", "textColor", "customBackgroundColor", "customTextColor",
   "gradient", "customGradient", "overlayColor", "customOverlayColor"]

/-- The inline array added to the allow list when
`zapOptions.customProperties` is false. -/
def customPropertiesKeys : List String :=
  ["fontSize", "customFontSize", "fontFamily", "fontStyle", "fontWeight",
   "letterSpacing", "textDecoration", "textTransform", "lineHeight",
   "margin", "padding", "blockGap", "borderColor", "customBorderColor",
   "borderRadius", "borderWidth", "borderStyle", "shadow", "filter",
   "position", "zIndex", "top", "right", "bottom", "left"]

/-- The inline array added to the allow list when `zapOptions.customClasses`
is false. -/
def customClassesKeys : List String := ["className"]

/-- The inline array added to the allow list when `zapOptions.customAnchors`
is false. -/
def customAnchorsKeys : List String := ["anchor"]

/-- The inline array added to the allow list when `zapOptions.htmlElements`
is false. -/
def htmlElementsKeys : List String := ["align", "nodeName"]

/-- Embedding of `getAllowList( isMegaZap, keepMedia, zapOptions )`: builds the explicit
allow list.  Essential content keys are always included; in Mega mode the
media keys are added exactly when `keepMedia` is set; in Selective mode the
media keys are added when `keepMedia` is set and each category's keys are
added when that category's removal flag is false. -/
def getAllowList (isMegaZap keepMedia : Bool) (zapOptions : ZapOptions) :
    List String :=
  essentialContent ++
    (if isMegaZap then
      (if keepMedia then getMediaAttributes else [])
    else
      (if keepMedia then getMediaAttributes else []) ++
      (if !zapOptions.blockSettings then blockSettingsKeys else []) ++
      (if !zapOptions.blockStyles then blockStylesKeys else []) ++
      (if !zapOptions.customProperties then customPropertiesKeys else []) ++
      (if !zapOptions.customClasses then customClassesKeys else []) ++
      (if !zapOptions.customAnchors then customAnchorsKeys else []) ++
      (if !zapOptions.htmlElements then htmlElementsKeys else []))

/-- The pair returned by `getCategorizedAttributes`: the surviving
key/value pairs and the removed keys. -/
structure ClassifyResult where
  cleanedAttributes : List (String × String)
  removedAttributes : List String
deriving DecidableEq, Repr

/-- Embedding of `getCategorizedAttributes( attributes, isMegaZap, keepMedia )`: routes
every key of the attribute map into `cleanedAttributes` when it is on the
allow list and into `removedAttributes` otherwise.  The source's single
`forEach` over `Object.keys` is modelled as the two complementary filters. -/
def getCategorizedAttributes (attributes : List (String × String))
    (isMegaZap keepMedia : Bool) (zapOptions : ZapOptions) : ClassifyResult :=
  let allowList := getAllowList isMegaZap keepMedia zapOptions
  { cleanedAttributes := attributes.filter (fun kv => decide (kv.1 ∈ allowList))
    removedAttributes :=
      (attributes.filter (fun kv => !decide (kv.1 ∈ allowList))).map Prod.fst }

/-- A block node: `name` (the block kind, empty string modelling a missing /
falsy kind identifier), `clientId` (the editor identity token, empty string
modelling a missing / falsy id), the attribute map, and the ordered list of
inner blocks. -/
inductive BlockNode : Type where
  | mk (name : String) (clientId : String)
      (attributes : List (String × String)) (innerBlocks : List BlockNode)

def BlockNode.name : BlockNode → String
  | .mk n _ _ _ => n

def BlockNode.clientId : BlockNode → String
  | .mk _ c _ _ => c

def BlockNode.attributes : BlockNode → List (String × String)
  | .mk _ _ a _ => a

def BlockNode.innerBlocks : BlockNode → List BlockNode
  | .mk _ _ _ i => i

/-- Modelled from the spec: the host block factory (`createBlock` of the
editor framework) is not part of this repository's sources; per the spec's
§4.2/§7, reconstructing a node "may fail for a reason outside this engine's
control".  A `NodeFactory` decides, for a block kind and a cleaned attribute
list, whether that construction succeeds; on success the factory yields a
fresh node of the same kind with the given attributes and children and a
fresh identity (modelled as the empty `clientId`). -/
def NodeFactory : Type := String → List (String × String) → Bool

mutual
/-- Embedding of `createCleanBlock( block, isMegaZap, keepMedia )`: returns `none` when
the block is malformed (falsy `name`) or when the factory rejects the
rebuilt node (the source catches the thrown error and returns `null`);
otherwise returns the rebuilt node together with the removed keys of this
node only.  Children are cleaned recursively, failed children being dropped.
The function is pure: the input node is never mutated, the result is a new
node. -/
def createCleanBlock (mkOk : NodeFactory) (isMegaZap keepMedia : Bool)
    (zapOptions : ZapOptions) : BlockNode → Option (BlockNode × List String)
  | .mk name _clientId attrs inner =>
    if name = "" then none
    else
      let result := getCategorizedAttributes attrs isMegaZap keepMedia zapOptions
      let cleanedInner := cleanInnerBlocks mkOk isMegaZap keepMedia zapOptions inner
      if mkOk name result.cleanedAttributes then
        some (.mk name "" result.cleanedAttributes cleanedInner,
          result.removedAttributes)
      else none

/-- The `block.innerBlocks.forEach` loop of `createCleanBlock`: cleans each
child in order and keeps only the successfully rebuilt ones. -/
def cleanInnerBlocks (mkOk : NodeFactory) (isMegaZap keepMedia : Bool)
    (zapOptions : ZapOptions) : List BlockNode → List BlockNode
  | [] => []
  | b :: bs =>
    match createCleanBlock mkOk isMegaZap keepMedia zapOptions b with
    | some (c, _) => c :: cleanInnerBlocks mkOk isMegaZap keepMedia zapOptions bs
    | none => cleanInnerBlocks mkOk isMegaZap keepMedia zapOptions bs
end

/-- JavaScript `name.replace('core/', '')`: removes the first occurrence of
the pattern. -/
def replaceFirst (s pat : String) : String :=
  match s.splitOn pat with
  | [] => s
  | [x] => x
  | x :: y :: rest => x ++ String.intercalate pat (y :: rest)

/-- Embedding of `block.name ? block.name.replace('core/', '') : 'unknown'`. -/
def blockDisplayName (name : String) : String :=
  if name = "" then "unknown" else replaceFirst name "core/"

/-- One entry of `zapDetails`. -/
structure ZapDetail where
  name : String
  before : Nat
  after : Nat
  removed : Nat
  removedAttributes : List String

/-- The value returned by `zapBlocks`, plus the list of
`(originalId, newBlock)` replacement pairs that the source hands to
`replaceBlock` (a host side effect, modelled as data). -/
structure ZapResult where
  totalZapped : Nat
  zapDetails : List ZapDetail
  totalAttributesRemoved : Nat
  replacements : List (String × BlockNode)

/-- Embedding of `zapBlocks( blocks, isMegaZap, keepMedia )`: iterates over the top-level
blocks; skips a block with a falsy `clientId` or a failed
`createCleanBlock`; for each remaining block compares the attribute count
before and after and, when the own removed list is non-empty or the count
shrank, records a replacement, a detail entry and the counter updates.  The
recursion processes the head's contribution before the tail, matching the
source's left-to-right `forEach`. -/
def zapBlocks (mkOk : NodeFactory) (isMegaZap keepMedia : Bool)
    (zapOptions : ZapOptions) : List BlockNode → ZapResult
  | [] => ⟨0, [], 0, []⟩
  | block :: rest =>
    let acc := zapBlocks mkOk isMegaZap keepMedia zapOptions rest
    if block.clientId = "" then acc
    else
      match createCleanBlock mkOk isMegaZap keepMedia zapOptions block with
      | none => acc
      | some (cleanBlock, removedAttrs) =>
        let beforeCount := block.attributes.length
        let afterCount := cleanBlock.attributes.length
        let removedCount := beforeCount - afterCount
        if removedCount > 0 ∨ removedAttrs.length > 0 then
          ⟨acc.totalZapped + 1,
            ⟨blockDisplayName block.name, beforeCount, afterCount,
              removedCount, removedAttrs⟩ :: acc.zapDetails,
            removedCount + acc.totalAttributesRemoved,
            (block.clientId, cleanBlock) :: acc.replacements⟩
        else acc

/-- The keys of an attribute map (`Object.keys`). -/
def attributeKeys (attrs : List (String × String)) : List String :=
  attrs.map Prod.fst

/-- All keys belonging to at least one defined attribute category. -/
def definedCategoryKeys : List String :=
  essentialContent ++ getMediaAttributes ++ blockSettingsKeys ++
    blockStylesKeys ++ customPropertiesKeys ++ customClassesKeys ++
    customAnchorsKeys ++ htmlElementsKeys

/-- The source's default option state (all seven flags start `true`). -/
def defaultZapOptions : ZapOptions := ⟨true, true, true, true, true, true, true⟩

/-- A key is among the kept keys iff it is an input key on the allow list. -/
theorem mem_keys_cleaned_iff (attrs : List (String × String))
    (m km : Bool) (o : ZapOptions) (k : String) :
    k ∈ attributeKeys (getCategorizedAttributes attrs m km o).cleanedAttributes ↔
      k ∈ attributeKeys attrs ∧ k ∈ getAllowList m km o := by
  simp only [attributeKeys, getCategorizedAttributes, List.mem_map,
    List.mem_filter, decide_eq_true_eq]
  constructor
  · rintro ⟨kv, ⟨hkv, hallow⟩, rfl⟩
    exact ⟨⟨kv, hkv, rfl⟩, hallow⟩
  · rintro ⟨⟨kv, hkv, rfl⟩, hallow⟩
    exact ⟨kv, ⟨hkv, hallow⟩, rfl⟩

/-- A key is among the removed keys iff it is an input key off the allow
list. -/
theorem mem_removed_iff (attrs : List (String × String))
    (m km : Bool) (o : ZapOptions) (k : String) :
    k ∈ (getCategorizedAttributes attrs m km o).removedAttributes ↔
      k ∈ attributeKeys attrs ∧ k ∉ getAllowList m km o := by
  simp only [attributeKeys, getCategorizedAttributes, List.mem_map,
    List.mem_filter, Bool.not_eq_true', decide_eq_false_iff_not]
  constructor
  · rintro ⟨kv, ⟨hkv, hallow⟩, rfl⟩
    exact ⟨⟨kv, hkv, rfl⟩, hallow⟩
  · rintro ⟨⟨kv, hkv, rfl⟩, hallow⟩
    exact ⟨kv, ⟨hkv, hallow⟩, rfl⟩

/-- Membership in a conditionally-empty list implies membership in the
list itself. -/
theorem mem_if_nil {k : String} {c : Bool} {l : List String}
    (h : k ∈ (if c then l else [])) : k ∈ l := by
  cases c
  · simp at h
  · simpa using h

theorem allowList_subset_defined (m km : Bool) (o : ZapOptions) (k : String)
    (h : k ∈ getAllowList m km o) : k ∈ definedCategoryKeys := by
  cases m <;>
    simp only [getAllowList, Bool.false_eq_true, eq_self_iff_true, if_false,
      if_true, List.mem_append, or_assoc] at h
  · rcases h with h | h | h | h | h | h | h | h
    · simp [definedCategoryKeys, List.mem_append, h]
    · simp [definedCategoryKeys, List.mem_append, mem_if_nil h]
    · simp [definedCategoryKeys, List.mem_append, mem_if_nil h]
    · simp [definedCategoryKeys, List.mem_append, mem_if_nil h]
    · simp [definedCategoryKeys, List.mem_append, mem_if_nil h]
    · simp [definedCategoryKeys, List.mem_append, mem_if_nil h]
    · simp [definedCategoryKeys, List.mem_append, mem_if_nil h]
    · simp [definedCategoryKeys, List.mem_append, mem_if_nil h]
  · rcases h with h | h
    · simp [definedCategoryKeys, List.mem_append, h]
    · simp [definedCategoryKeys, List.mem_append, mem_if_nil h]

/-- Claim C1: in Mega mode with `keepMedia = false`, the kept key set is
exactly the intersection of the input key set with the Essential category;
no other key, known or unknown, survives. -/
theorem mega_minimality (attrs : List (String × String)) (o : ZapOptions)
    (k : String) :
    k ∈ attributeKeys (getCategorizedAttributes attrs true false o).cleanedAttributes ↔
      k ∈ attributeKeys attrs ∧ k ∈ essentialContent := by
  rw [mem_keys_cleaned_iff]
  simp [getAllowList]

/-- Claim C2: with `keepMedia = true`, every Media-category key present in
the input is kept, in both Selective and Mega mode, and for every option
assignment — including options that select an overlapping destructive
category for removal. -/
theorem media_monotonicity (attrs : List (String × String)) (isMegaZap : Bool)
    (o : ZapOptions) (k : String) (hmedia : k ∈ getMediaAttributes)
    (hpresent : k ∈ attributeKeys attrs) :
    k ∈ attributeKeys (getCategorizedAttributes attrs isMegaZap true o).cleanedAttributes := by
  rw [mem_keys_cleaned_iff]
  refine ⟨hpresent, ?_⟩
  cases isMegaZap <;> simp [getAllowList, hmedia]

/-- Witness for C2 at a concrete input: `gradient` is a Media key that also
belongs to the BlockStyles category selected for removal, yet it is kept. -/
theorem media_monotonicity_witness :
    "gradient" ∈ getMediaAttributes ∧
      "gradient" ∈ attributeKeys [("gradient", "linear"), ("className", "x")] ∧
      "gradient" ∈ attributeKeys
        (getCategorizedAttributes [("gradient", "linear"), ("className", "x")]
          false true defaultZapOptions).cleanedAttributes :=
  ⟨by decide, by decide,
    media_monotonicity [("gradient", "linear"), ("className", "x")] false
      defaultZapOptions "gradient" (by decide) (by decide)⟩

/-- Claim C3: every Essential-category key present in the input is kept,
for every mode and every option assignment. -/
theorem essential_invariance (attrs : List (String × String))
    (isMegaZap keepMedia : Bool) (o : ZapOptions) (k : String)
    (hess : k ∈ essentialContent) (hpresent : k ∈ attributeKeys attrs) :
    k ∈ attributeKeys
      (getCategorizedAttributes attrs isMegaZap keepMedia o).cleanedAttributes := by
  rw [mem_keys_cleaned_iff]
  refine ⟨hpresent, ?_⟩
  simp [getAllowList, hess]

/-- Witness for C3 at a concrete input: `content` survives a Mega zap with
`keepMedia = false`. -/
theorem essential_invariance_witness :
    "content" ∈ essentialContent ∧
      "content" ∈ attributeKeys [("content", "hi"), ("className", "x")] ∧
      "content" ∈ attributeKeys
        (getCategorizedAttributes [("content", "hi"), ("className", "x")]
          true false defaultZapOptions).cleanedAttributes :=
  ⟨by decide, by decide,
    essential_invariance [("content", "hi"), ("className", "x")] true false
      defaultZapOptions "content" (by decide) (by decide)⟩

/-- Claim C4: the classifier's two outputs partition the input key set —
every input key lands in exactly one of `cleanedAttributes` /
`removedAttributes`, and no key outside the input appears in either. -/
theorem partition_property (attrs : List (String × String)) (m km : Bool)
    (o : ZapOptions) (k : String) :
    (k ∈ attributeKeys attrs ↔
      (k ∈ attributeKeys (getCategorizedAttributes attrs m km o).cleanedAttributes ∨
        k ∈ (getCategorizedAttributes attrs m km o).removedAttributes)) ∧
    ¬(k ∈ attributeKeys (getCategorizedAttributes attrs m km o).cleanedAttributes ∧
        k ∈ (getCategorizedAttributes attrs m km o).removedAttributes) := by
  by_cases h : k ∈ getAllowList m km o <;>
    simp [mem_keys_cleaned_iff, mem_removed_iff, h]

/-- Counterexample for C5 as stated: `zzUnknownKey` belongs to no defined
category, yet the classifier removes it (Mega mode shown); it is not kept. -/
theorem unknown_key_preservation_cex :
    "zzUnknownKey" ∉ definedCategoryKeys ∧
      (getCategorizedAttributes [("zzUnknownKey", "v")] true false
        defaultZapOptions).cleanedAttributes = [] ∧
      (getCategorizedAttributes [("zzUnknownKey", "v")] true false
        defaultZapOptions).removedAttributes = ["zzUnknownKey"] := by
  refine ⟨by decide, by decide, by decide⟩

/-- Amended C5: a key belonging to no defined category is always removed,
never kept, in every mode and for every option assignment. -/
theorem unknown_key_always_removed (attrs : List (String × String))
    (m km : Bool) (o : ZapOptions) (k : String)
    (hunknown : k ∉ definedCategoryKeys) (hpresent : k ∈ attributeKeys attrs) :
    k ∈ (getCategorizedAttributes attrs m km o).removedAttributes := by
  rw [mem_removed_iff]
  exact ⟨hpresent, fun hmem => hunknown (allowList_subset_defined m km o k hmem)⟩

/-- Witness for the amended C5 at a concrete input. -/
theorem unknown_key_always_removed_witness :
    "myCustomAttr" ∉ definedCategoryKeys ∧
      "myCustomAttr" ∈ attributeKeys [("myCustomAttr", "1")] ∧
      "myCustomAttr" ∈ (getCategorizedAttributes [("myCustomAttr", "1")]
        false true defaultZapOptions).removedAttributes :=
  ⟨by decide, by decide,
    unknown_key_always_removed [("myCustomAttr", "1")] false true
      defaultZapOptions "myCustomAttr" (by decide) (by decide)⟩

/-- Unfolding characterization of `createCleanBlock` on a constructor. -/
theorem createCleanBlock_eq (mkOk : NodeFactory) (m km : Bool) (o : ZapOptions)
    (name cid : String) (attrs : List (String × String))
    (inner : List BlockNode) :
    createCleanBlock mkOk m km o (.mk name cid attrs inner) =
      if name = "" then none
      else if mkOk name (getCategorizedAttributes attrs m km o).cleanedAttributes then
        some (.mk name "" (getCategorizedAttributes attrs m km o).cleanedAttributes
          (cleanInnerBlocks mkOk m km o inner),
          (getCategorizedAttributes attrs m km o).removedAttributes)
      else none := rfl

/-- The child-cleaning loop keeps, in order, exactly the successfully
rebuilt children. -/
theorem cleanInnerBlocks_eq_filterMap (mkOk : NodeFactory) (m km : Bool)
    (o : ZapOptions) (l : List BlockNode) :
    cleanInnerBlocks mkOk m km o l =
      l.filterMap (fun b => (createCleanBlock mkOk m km o b).map Prod.fst) := by
  induction l with
  | nil => rfl
  | cons b bs ih =>
    cases hb : createCleanBlock mkOk m km o b with
    | none => simp [cleanInnerBlocks, hb, ih]
    | some p =>
      cases p with
      | mk c r => simp [cleanInnerBlocks, hb, ih]

/-- The two classifier outputs account for every input pair. -/
theorem cleaned_length_add_removed_length (attrs : List (String × String))
    (m km : Bool) (o : ZapOptions) :
    (getCategorizedAttributes attrs m km o).cleanedAttributes.length +
      (getCategorizedAttributes attrs m km o).removedAttributes.length =
      attrs.length := by
  simp only [getCategorizedAttributes, List.length_map]
  induction attrs with
  | nil => rfl
  | cons kv t ih =>
    by_cases h : kv.1 ∈ getAllowList m km o <;>
      simp [List.filter_cons, h] <;> omega

/-- Claim C7: for a well-formed node whose reconstruction succeeds, the
cleaned node keeps the kind, its attribute map is the classifier's kept
sublist of the original (keys only removed, never added, values and order
unchanged), its child list keeps the surviving children in their original
order (dropping exactly the children whose own cleaning failed), and the
removed-key output is the classifier's removed list.  The embedding is
pure, so the original node is unchanged by construction. -/
theorem structural_preservation (mkOk : NodeFactory) (m km : Bool)
    (o : ZapOptions) (name cid : String) (attrs : List (String × String))
    (inner : List BlockNode) (c : BlockNode) (r : List String)
    (h : createCleanBlock mkOk m km o (.mk name cid attrs inner) = some (c, r)) :
    c.name = name ∧
    c.attributes = (getCategorizedAttributes attrs m km o).cleanedAttributes ∧
    c.attributes.Sublist attrs ∧
    c.innerBlocks =
      inner.filterMap (fun b => (createCleanBlock mkOk m km o b).map Prod.fst) ∧
    c.innerBlocks.length ≤ inner.length ∧
    r = (getCategorizedAttributes attrs m km o).removedAttributes := by
  rw [createCleanBlock_eq] at h
  by_cases hname : name = ""
  · rw [if_pos hname] at h
    cases h
  rw [if_neg hname] at h
  by_cases hmk :
      mkOk name (getCategorizedAttributes attrs m km o).cleanedAttributes = true
  · rw [if_pos hmk] at h
    injection h with h'
    injection h' with hc hr
    subst hc
    subst hr
    refine ⟨rfl, rfl, ?_, ?_, ?_, rfl⟩
    · exact List.filter_sublist attrs
    · exact cleanInnerBlocks_eq_filterMap mkOk m km o inner
    · show (cleanInnerBlocks mkOk m km o inner).length ≤ inner.length
      rw [cleanInnerBlocks_eq_filterMap]
      exact List.length_filterMap_le _ _
  · rw [if_neg hmk] at h
    cases h

/-- A factory accepting every reconstruction (used by concrete witnesses). -/
def mkOkAlways : NodeFactory := fun _ _ => true

/-- Concrete attribute map for the C7 witness. -/
def c7SampleAttrs : List (String × String) :=
  [("className", "x"), ("content", "hi")]

/-- Concrete children for the C7 witness: one malformed child (empty kind)
followed by a well-formed one. -/
def c7SampleInner : List BlockNode :=
  [.mk "" "c2" [] [], .mk "core/paragraph" "c3" [("content", "p")] []]

/-- The cleaned node produced by the C7 witness input. -/
def c7Clean : BlockNode :=
  .mk "core/group" "" [("content", "hi")]
    [.mk "core/paragraph" "" [("content", "p")] []]

/-- Witness for C7 at a concrete input (Selective mode, default options):
the malformed child is dropped, the order of the survivors is preserved,
and the attribute map is a sublist of the original. -/
theorem structural_preservation_witness :
    c7Clean.name = "core/group" ∧
    c7Clean.attributes =
      (getCategorizedAttributes c7SampleAttrs false true
        defaultZapOptions).cleanedAttributes ∧
    c7Clean.attributes.Sublist c7SampleAttrs ∧
    c7Clean.innerBlocks = c7SampleInner.filterMap
      (fun b => (createCleanBlock mkOkAlways false true defaultZapOptions b).map
        Prod.fst) ∧
    c7Clean.innerBlocks.length ≤ c7SampleInner.length ∧
    ["className"] = (getCategorizedAttributes c7SampleAttrs false true
      defaultZapOptions).removedAttributes :=
  structural_preservation mkOkAlways false true defaultZapOptions "core/group"
    "cid1" c7SampleAttrs c7SampleInner c7Clean ["className"] rfl

/-- Claim C8: a malformed node (falsy id or failed reconstruction) is
dropped and the batch continues unchanged — the skipped node contributes
nothing to the result, never aborts the siblings, and a malformed child
inside a parent likewise leaves the parent's cleaning unaffected.  The
embedded engine is a total function, so no exception can propagate. -/
theorem error_recovery (mkOk : NodeFactory) (m km : Bool) (o : ZapOptions)
    (xs ys : List BlockNode) (bad : BlockNode)
    (hbad : bad.clientId = "" ∨ createCleanBlock mkOk m km o bad = none) :
    zapBlocks mkOk m km o (xs ++ bad :: ys) = zapBlocks mkOk m km o (xs ++ ys) ∧
    (createCleanBlock mkOk m km o bad = none →
      ∀ name cid attrs,
        createCleanBlock mkOk m km o (.mk name cid attrs (xs ++ bad :: ys)) =
          createCleanBlock mkOk m km o (.mk name cid attrs (xs ++ ys))) := by
  constructor
  · induction xs with
    | nil =>
      simp only [List.nil_append]
      rcases hbad with hc | hn
      · simp [zapBlocks, hc]
      · by_cases hc : bad.clientId = ""
        · simp [zapBlocks, hc]
        · simp [zapBlocks, hc, hn]
    | cons x xs ih =>
      simp only [List.cons_append, zapBlocks, List.append_eq, ih]
  · intro hnone name cid attrs
    rw [createCleanBlock_eq, createCleanBlock_eq]
    rw [cleanInnerBlocks_eq_filterMap, cleanInnerBlocks_eq_filterMap]
    rw [List.filterMap_append, List.filterMap_append]
    simp [List.filterMap_cons, hnone]

/-- Concrete valid sibling for the C8 witness. -/
def c8Good : BlockNode := .mk "core/paragraph" "g1" [("className", "x")] []

/-- Concrete malformed block for the C8 witness (empty kind identifier). -/
def c8Bad : BlockNode := .mk "" "b1" [("className", "y")] []

/-- Witness for C8 at a concrete input: inserting the malformed block does
not change the outcome for its sibling. -/
theorem error_recovery_witness :
    zapBlocks mkOkAlways true false defaultZapOptions ([c8Good] ++ c8Bad :: []) =
      zapBlocks mkOkAlways true false defaultZapOptions ([c8Good] ++ []) :=
  (error_recovery mkOkAlways true false defaultZapOptions [c8Good] [] c8Bad
    (Or.inr rfl)).1

/-- The removed keys that `zapBlocks` attributes to one top-level block:
its own classifier output when the block is valid and reconstructible,
and nothing otherwise.  Descendants never contribute. -/
def topOwnRemoved (mkOk : NodeFactory) (m km : Bool) (o : ZapOptions)
    (b : BlockNode) : List String :=
  if b.clientId = "" then []
  else if b.name = "" then []
  else if mkOk b.name (getCategorizedAttributes b.attributes m km o).cleanedAttributes then
    (getCategorizedAttributes b.attributes m km o).removedAttributes
  else []

/-- The `zapDetails` entry that `zapBlocks` emits for one top-level block,
if any. -/
def topDetail (mkOk : NodeFactory) (m km : Bool) (o : ZapOptions)
    (b : BlockNode) : Option ZapDetail :=
  if (topOwnRemoved mkOk m km o b).isEmpty then none
  else some ⟨blockDisplayName b.name, b.attributes.length,
    b.attributes.length - (topOwnRemoved mkOk m km o b).length,
    (topOwnRemoved mkOk m km o b).length, topOwnRemoved mkOk m km o b⟩

/-- The replacement pair that `zapBlocks` emits for one top-level block,
if any. -/
def topReplacement (mkOk : NodeFactory) (m km : Bool) (o : ZapOptions)
    (b : BlockNode) : Option (String × BlockNode) :=
  if (topOwnRemoved mkOk m km o b).isEmpty then none
  else (createCleanBlock mkOk m km o b).map (fun p => (b.clientId, p.1))

/-- Closed form of `zapBlocks`: every report field is computed from the
top-level blocks' own attribute classification only. -/
theorem zapBlocks_closed_form (mkOk : NodeFactory) (m km : Bool)
    (o : ZapOptions) (blocks : List BlockNode) :
    zapBlocks mkOk m km o blocks =
      ⟨(blocks.filterMap (topDetail mkOk m km o)).length,
        blocks.filterMap (topDetail mkOk m km o),
        (blocks.map (fun b => (topOwnRemoved mkOk m km o b).length)).sum,
        blocks.filterMap (topReplacement mkOk m km o)⟩ := by
  induction blocks with
  | nil => rfl
  | cons b bs ih =>
    cases b with
    | mk name cid attrs inner =>
      by_cases hcid : cid = ""
      · simp [zapBlocks, BlockNode.clientId, hcid, ih, topDetail, topOwnRemoved,
          topReplacement, List.filterMap_cons]
      · by_cases hname : name = ""
        · subst hname
          have hcc : createCleanBlock mkOk m km o (.mk "" cid attrs inner) = none := by
            rw [createCleanBlock_eq, if_pos rfl]
          simp [zapBlocks, BlockNode.clientId, BlockNode.name, hcid, hcc,
            ih, topDetail, topOwnRemoved, topReplacement, List.filterMap_cons]
        · by_cases hmk : mkOk name
            (getCategorizedAttributes attrs m km o).cleanedAttributes = true
          · have hcc : createCleanBlock mkOk m km o (.mk name cid attrs inner) =
                some (.mk name ""
                  (getCategorizedAttributes attrs m km o).cleanedAttributes
                  (cleanInnerBlocks mkOk m km o inner),
                  (getCategorizedAttributes attrs m km o).removedAttributes) := by
              rw [createCleanBlock_eq, if_neg hname, if_pos hmk]
            have hlen := cleaned_length_add_removed_length attrs m km o
            by_cases hrem :
                (getCategorizedAttributes attrs m km o).removedAttributes = []
            · have hr0 :
                  (getCategorizedAttributes attrs m km o).removedAttributes.length = 0 := by
                rw [hrem]
                rfl
              have h0 : attrs.length -
                  (getCategorizedAttributes attrs m km o).cleanedAttributes.length = 0 := by
                omega
              simp [zapBlocks, BlockNode.clientId, BlockNode.name,
                BlockNode.attributes, hcid, hname, hmk, hcc, hrem, h0, ih,
                topDetail, topOwnRemoved, topReplacement, List.filterMap_cons]
            · have hpos :
                  0 < (getCategorizedAttributes attrs m km o).removedAttributes.length :=
                List.length_pos.mpr hrem
              simp [zapBlocks, BlockNode.clientId, BlockNode.name,
                BlockNode.attributes, hcid, hname, hmk, hcc, hrem, hpos,
                List.isEmpty_iff, ih, topDetail, topOwnRemoved, topReplacement,
                List.filterMap_cons]
              all_goals omega
          · have hcc : createCleanBlock mkOk m km o (.mk name cid attrs inner) = none := by
              rw [createCleanBlock_eq, if_neg hname, if_neg hmk]
            simp [zapBlocks, BlockNode.clientId, BlockNode.name,
              BlockNode.attributes, hcid, hname, hmk, hcc, ih, topDetail,
              topOwnRemoved, topReplacement, List.filterMap_cons]

mutual
/-- Spec-side aggregate, following the spec's words for claim C6 ("total
removed = sum of removedKeys lengths across all visited nodes"): the sum of
the classifier's removed-key counts over a node and all its transitively
reachable descendants.  Defined only to be compared against what
`zapBlocks` actually reports. -/
def specRemovedTotalNode (m km : Bool) (o : ZapOptions) : BlockNode → Nat
  | .mk _ _ attrs inner =>
    (getCategorizedAttributes attrs m km o).removedAttributes.length +
      specRemovedTotalForest m km o inner

/-- Spec-side aggregate over a forest (see `specRemovedTotalNode`). -/
def specRemovedTotalForest (m km : Bool) (o : ZapOptions) : List BlockNode → Nat
  | [] => 0
  | b :: bs => specRemovedTotalNode m km o b + specRemovedTotalForest m km o bs
end

/-- Concrete forest for the C6 counterexample: an untouched parent whose
child has one removable attribute. -/
def c6Parent : BlockNode :=
  .mk "core/group" "p1" [] [.mk "core/paragraph" "c1" [("className", "x")] []]

/-- Counterexample for C6 as stated: in the forest `[c6Parent]` the spec's
"sum of removedKeys lengths across all visited nodes" is 1 (the child's
`className` is removed), but `zapBlocks` reports 0 removed attributes and 0
changed blocks — descendants' removed keys are discarded by the recursion
and the parent's own attribute map is untouched. -/
theorem report_aggregation_cex :
    specRemovedTotalForest false true defaultZapOptions [c6Parent] = 1 ∧
    (zapBlocks mkOkAlways false true defaultZapOptions [c6Parent]).totalAttributesRemoved = 0 ∧
    (zapBlocks mkOkAlways false true defaultZapOptions [c6Parent]).totalZapped = 0 ∧
    (zapBlocks mkOkAlways false true defaultZapOptions [c6Parent]).zapDetails = [] :=
  ⟨rfl, rfl, rfl, rfl⟩

/-- Amended C6: the report aggregates over top-level blocks only — the
total removed count is the sum of the top-level blocks' own removed-key
counts, a block is counted as changed exactly when its own removed list is
non-empty, the per-node details are recorded exactly for those top-level
changed blocks in traversal order, descendants' removed keys contribute
nothing, and no visited-node count is reported at all. -/
theorem report_toplevel_aggregation (mkOk : NodeFactory) (m km : Bool)
    (o : ZapOptions) (blocks : List BlockNode) :
    (zapBlocks mkOk m km o blocks).totalAttributesRemoved =
      (blocks.map (fun b => (topOwnRemoved mkOk m km o b).length)).sum ∧
    (zapBlocks mkOk m km o blocks).zapDetails =
      blocks.filterMap (topDetail mkOk m km o) ∧
    (zapBlocks mkOk m km o blocks).totalZapped =
      (blocks.filterMap (topDetail mkOk m km o)).length := by
  rw [zapBlocks_closed_form]
  exact ⟨rfl, rfl, rfl⟩

/-- Claim C10: a valid, reconstructible top-level block is replaced (and
counted in the report) iff its own attribute classification removes at
least one key; the decision and every report field depend only on the
block's own attribute map — the inner blocks are universally quantified
and absent from the right-hand sides, so removals inside descendants
contribute nothing. -/
theorem toplevel_replacement_decision (mkOk : NodeFactory) (m km : Bool)
    (o : ZapOptions) (name cid : String) (attrs : List (String × String))
    (inner : List BlockNode) (hcid : cid ≠ "") (hname : name ≠ "")
    (hmk : mkOk name (getCategorizedAttributes attrs m km o).cleanedAttributes = true) :
    ((zapBlocks mkOk m km o [.mk name cid attrs inner]).replacements ≠ [] ↔
      (getCategorizedAttributes attrs m km o).removedAttributes ≠ []) ∧
    (zapBlocks mkOk m km o [.mk name cid attrs inner]).totalAttributesRemoved =
      (getCategorizedAttributes attrs m km o).removedAttributes.length ∧
    (zapBlocks mkOk m km o [.mk name cid attrs inner]).totalZapped =
      (if (getCategorizedAttributes attrs m km o).removedAttributes = []
        then 0 else 1) ∧
    ((getCategorizedAttributes attrs m km o).removedAttributes = [] →
      zapBlocks mkOk m km o [.mk name cid attrs inner] = ⟨0, [], 0, []⟩) := by
  have hTop : topOwnRemoved mkOk m km o (.mk name cid attrs inner) =
      (getCategorizedAttributes attrs m km o).removedAttributes := by
    simp [topOwnRemoved, BlockNode.clientId, BlockNode.name,
      BlockNode.attributes, hcid, hname, hmk]
  rw [zapBlocks_closed_form]
  by_cases hrem : (getCategorizedAttributes attrs m km o).removedAttributes = []
  · refine ⟨?_, ?_, ?_, ?_⟩
    · simp [topReplacement, hTop, hrem]
    · simp [hTop, hrem]
    · simp [topDetail, hTop, hrem]
    · intro _
      simp [topDetail, topReplacement, hTop, hrem]
  · have hcc : createCleanBlock mkOk m km o (.mk name cid attrs inner) =
        some (.mk name ""
          (getCategorizedAttributes attrs m km o).cleanedAttributes
          (cleanInnerBlocks mkOk m km o inner),
          (getCategorizedAttributes attrs m km o).removedAttributes) := by
      rw [createCleanBlock_eq, if_neg hname, if_pos hmk]
    refine ⟨?_, ?_, ?_, ?_⟩
    · simp [topReplacement, hTop, hrem, List.isEmpty_iff, hcc]
    · simp [hTop]
    · simp [topDetail, hTop, hrem, List.isEmpty_iff]
    · intro h
      exact absurd h hrem

/-- Concrete top-level block for the C10 witness: its own attributes are
all kept (Selective mode, default options, `content` is Essential), while
its child carries a removable `className`. -/
def c10Parent : BlockNode :=
  .mk "core/group" "p2" [("content", "hi")]
    [.mk "core/paragraph" "c9" [("className", "x")] []]

/-- Witness for C10 at a concrete input: the parent's own attribute map is
untouched, so nothing is replaced or reported even though its child has a
removable attribute. -/
theorem toplevel_replacement_decision_witness :
    zapBlocks mkOkAlways false true defaultZapOptions [c10Parent] = ⟨0, [], 0, []⟩ :=
  (toplevel_replacement_decision mkOkAlways false true defaultZapOptions
    "core/group" "p2" [("content", "hi")]
    [.mk "core/paragraph" "c9" [("className", "x")] []]
    (by decide) (by decide) rfl).2.2.2 rfl

/-- Classifying an already-classified attribute map keeps everything and
removes nothing. -/
theorem getCategorizedAttributes_idem (attrs : List (String × String))
    (m km : Bool) (o : ZapOptions) :
    getCategorizedAttributes
        (getCategorizedAttributes attrs m km o).cleanedAttributes m km o =
      ⟨(getCategorizedAttributes attrs m km o).cleanedAttributes, []⟩ := by
  simp only [getCategorizedAttributes, ClassifyResult.mk.injEq]
  constructor
  · rw [List.filter_filter]
    simp
  · rw [List.filter_filter]
    simp

mutual
/-- Statement helper for C9: a second cleaning pass over this node and all
its descendants removes nothing (every node's classifier output has an
empty removed list). -/
def secondPassClean (m km : Bool) (o : ZapOptions) : BlockNode → Bool
  | .mk _ _ attrs inner =>
    (getCategorizedAttributes attrs m km o).removedAttributes.isEmpty &&
      secondPassCleanForest m km o inner

/-- Forest version of `secondPassClean`. -/
def secondPassCleanForest (m km : Bool) (o : ZapOptions) : List BlockNode → Bool
  | [] => true
  | b :: bs => secondPassClean m km o b && secondPassCleanForest m km o bs
end

/-- Cleaning a list of already-clean children is the identity. -/
theorem cleanInnerBlocks_fixed (mkOk : NodeFactory) (m km : Bool)
    (o : ZapOptions) (l : List BlockNode)
    (h : ∀ b ∈ l, createCleanBlock mkOk m km o b = some (b, [])) :
    cleanInnerBlocks mkOk m km o l = l := by
  induction l with
  | nil => rfl
  | cons b bs ih =>
    have hb := h b (List.mem_cons_self b bs)
    simp [cleanInnerBlocks, hb, ih (fun x hx => h x (List.mem_cons_of_mem b hx))]

/-- A forest whose members all pass `secondPassClean` passes
`secondPassCleanForest`. -/
theorem secondPassCleanForest_of_all (m km : Bool) (o : ZapOptions)
    (l : List BlockNode) (h : ∀ b ∈ l, secondPassClean m km o b = true) :
    secondPassCleanForest m km o l = true := by
  induction l with
  | nil => rfl
  | cons b bs ih =>
    simp [secondPassCleanForest, h b (List.mem_cons_self b bs),
      ih (fun x hx => h x (List.mem_cons_of_mem b hx))]

/-- Strong-induction core of the idempotence claim. -/
theorem clean_idempotent_aux (mkOk : NodeFactory) (m km : Bool)
    (o : ZapOptions) :
    ∀ fuel : Nat, ∀ n : BlockNode, sizeOf n ≤ fuel → ∀ c r,
      createCleanBlock mkOk m km o n = some (c, r) →
      createCleanBlock mkOk m km o c = some (c, []) ∧
        secondPassClean m km o c = true := by
  intro fuel
  induction fuel with
  | zero =>
    intro n hn
    cases n with
    | mk name cid attrs inner =>
      simp at hn
  | succ k ih =>
    intro n hn c r h
    cases n with
    | mk name cid attrs inner =>
      rw [createCleanBlock_eq] at h
      by_cases hname : name = ""
      · rw [if_pos hname] at h
        cases h
      rw [if_neg hname] at h
      by_cases hmk :
          mkOk name (getCategorizedAttributes attrs m km o).cleanedAttributes = true
      · rw [if_pos hmk] at h
        injection h with h'
        injection h' with hc hr
        subst hc
        subst hr
        have hchild : ∀ b ∈ cleanInnerBlocks mkOk m km o inner,
            createCleanBlock mkOk m km o b = some (b, []) ∧
              secondPassClean m km o b = true := by
          intro b hb
          rw [cleanInnerBlocks_eq_filterMap] at hb
          obtain ⟨b0, hb0, hmap⟩ := List.mem_filterMap.mp hb
          cases hcc : createCleanBlock mkOk m km o b0 with
          | none =>
            rw [hcc] at hmap
            cases hmap
          | some p =>
            cases p with
            | mk cb rb =>
              rw [hcc] at hmap
              simp only [Option.map_some'] at hmap
              injection hmap with hmap'
              subst hmap'
              have hsz : sizeOf b0 ≤ k := by
                have h1 := List.sizeOf_lt_of_mem hb0
                have h2 : sizeOf inner <
                    sizeOf (BlockNode.mk name cid attrs inner) := by
                  simp
                omega
              exact ih b0 hsz _ rb hcc
        have hfix : cleanInnerBlocks mkOk m km o (cleanInnerBlocks mkOk m km o inner) =
            cleanInnerBlocks mkOk m km o inner :=
          cleanInnerBlocks_fixed mkOk m km o _ (fun b hb => (hchild b hb).1)
        constructor
        · rw [createCleanBlock_eq, if_neg hname]
          rw [getCategorizedAttributes_idem]
          rw [hfix]
          simp [hmk]
        · show secondPassClean m km o (.mk name ""
            (getCategorizedAttributes attrs m km o).cleanedAttributes
            (cleanInnerBlocks mkOk m km o inner)) = true
          rw [secondPassClean]
          have hempty :
              (getCategorizedAttributes
                (getCategorizedAttributes attrs m km o).cleanedAttributes m km
                o).removedAttributes = [] := by
            rw [getCategorizedAttributes_idem]
          rw [hempty]
          simp [secondPassCleanForest_of_all m km o _
            (fun b hb => (hchild b hb).2)]
      · rw [if_neg hmk] at h
        cases h

/-- Claim C9: cleaning is idempotent — re-cleaning the output of a
successful cleaning pass, with the same mode and options, returns that
output unchanged with an empty removed list, and every node of the output
(descendants included) classifies to zero further removals. -/
theorem clean_idempotent (mkOk : NodeFactory) (m km : Bool) (o : ZapOptions)
    (n c : BlockNode) (r : List String)
    (h : createCleanBlock mkOk m km o n = some (c, r)) :
    createCleanBlock mkOk m km o c = some (c, []) ∧
      secondPassClean m km o c = true :=
  clean_idempotent_aux mkOk m km o (sizeOf n) n (Nat.le_refl _) c r h

/-- Concrete input node for the C9 witness. -/
def c9Sample : BlockNode :=
  .mk "core/group" "p3" [("className", "x"), ("content", "hi")]
    [.mk "core/paragraph" "c4" [("align", "wide"), ("content", "p")] []]

/-- The first-pass output for the C9 witness input. -/
def c9Clean : BlockNode :=
  .mk "core/group" "" [("content", "hi")]
    [.mk "core/paragraph" "" [("content", "p")] []]

/-- Witness for C9 at a concrete input: the second pass returns the
first-pass output unchanged and removes nothing anywhere. -/
theorem clean_idempotent_witness :
    createCleanBlock mkOkAlways false true defaultZapOptions c9Clean =
      some (c9Clean, []) ∧
    secondPassClean false true defaultZapOptions c9Clean = true :=
  clean_idempotent mkOkAlways false true defaultZapOptions c9Sample c9Clean
    ["className"] rfl

end BlockZapper
